import Mathlib

/- Verification development for the BLE companion application
   (CompanionApps/Linux/bluetooth_companion_app.py).

   Python strings are modelled as lists of characters, dictionaries as
   association lists with dict update semantics, and the GTK widget layer
   only through its observable effects (which view is visible, which list
   of devices a refresh renders).  Asynchronous timer and scan events are
   modelled as explicit events consumed by a step function. -/

namespace BluetoothApp

/-- Python str modelled as a list of characters. -/
abbrev Str := List Char

/-- Python str.lower, applied character by character. -/
def lowerStr (s : Str) : Str := s.map Char.toLower

/-- Does the first list start the second?  Helper for substring containment. -/
def startsWith : Str → Str → Bool
  | [], _ => true
  | _ :: _, [] => false
  | a :: as, b :: bs => a = b && startsWith as bs

/-- Python substring containment, the in operator on str. -/
def containsSub (needle : Str) : Str → Bool
  | [] => startsWith needle []
  | hay@(_ :: rest) => startsWith needle hay || containsSub needle rest

/-- BluetoothState constants from the source. -/
inductive BluetoothState where
  | unknown
  | ready
  | disabled
  | unsupported
  | no_permission
deriving DecidableEq, Repr

/-- The BLEDevice dataclass.  Bytes are modelled as lists of byte values and
the float timestamp as a natural number of ticks; no claim computes with
either field, they are carried as plain data. -/
structure BLEDevice where
  address : Str
  name : Str
  local_name : Option Str
  rssi : Int
  service_uuids : List Str
  tx_power : Option Int
  manufacturer_data : Option (List Nat)
  connectable : Bool
  discovered_at : Nat
deriving DecidableEq, Repr

/-- BLEDevice.display_name: local_name when truthy (Python: non-None and
non-empty), else name when non-empty, else the literal Unknown. -/
def BLEDevice.display_name (d : BLEDevice) : Str :=
  match d.local_name with
  | some ln => if ln.isEmpty then (if d.name.isEmpty then ("Unknown").data else d.name) else ln
  | none => if d.name.isEmpty then ("Unknown").data else d.name

/-- BLEDevice.rssi_description: the signal tier derived from rssi. -/
def BLEDevice.rssi_description (d : BLEDevice) : String :=
  if d.rssi ≥ -50 then "Excellent"
  else if d.rssi ≥ -60 then "Good"
  else if d.rssi ≥ -70 then "Fair"
  else "Weak"

/-- One step of the greedy subsequence scan in matches_fuzzy_search: advance
the query index exactly when it is in range and the current name character
equals the next unconsumed query character. -/
def scanStep (q : Str) (p : Nat) (c : Char) : Nat :=
  if q[p]? = some c then p + 1 else p

/-- The greedy single-pass subsequence test of matches_fuzzy_search: walk the
name once, consuming query characters in order, and succeed when the final
query index equals the query length. -/
def subseqScan (name q : Str) : Bool :=
  name.foldl (scanStep q) 0 == q.length

/-- BLEDevice.matches_fuzzy_search, clause for clause from the source:
empty query, substring of the display name, greedy subsequence of the
display name, substring of a service UUID, substring of the address. -/
def BLEDevice.matches_fuzzy_search (d : BLEDevice) (query : Str) : Bool :=
  if query.isEmpty then true
  else
    let lower_query := lowerStr query
    let lower_name := lowerStr d.display_name
    if containsSub lower_query lower_name then true
    else if subseqScan lower_name lower_query then true
    else if d.service_uuids.any (fun uuid => containsSub lower_query (lowerStr uuid)) then true
    else if containsSub lower_query (lowerStr d.address) then true
    else false

/-- Variant of matches_fuzzy_search with the contiguous-substring clause on
the display name removed, used to compare against the original. -/
def BLEDevice.matches_fuzzy_search_nosub (d : BLEDevice) (query : Str) : Bool :=
  if query.isEmpty then true
  else
    let lower_query := lowerStr query
    let lower_name := lowerStr d.display_name
    if subseqScan lower_name lower_query then true
    else if d.service_uuids.any (fun uuid => containsSub lower_query (lowerStr uuid)) then true
    else if containsSub lower_query (lowerStr d.address) then true
    else false

/-- Marker strings inspected by on_scan_error. -/
def permissionMarker : Str := ("Permission").data

def notAuthorizedMarker : Str := ("NotAuthorized").data

def notReadyMarker : Str := ("NotReady").data

def notPoweredMarker : Str := ("NotPowered").data

def noAdapterMarker : Str := ("No adapter").data

def notSupportedMarker : Str := ("NotSupported").data

/-- The classification chain of on_scan_error, mapping an error message to a
BluetoothState, first match winning. -/
def classify_scan_error (message : Str) : BluetoothState :=
  if containsSub permissionMarker message || containsSub notAuthorizedMarker message then
    .no_permission
  else if containsSub notReadyMarker message || containsSub notPoweredMarker message then
    .disabled
  else if containsSub noAdapterMarker message || containsSub notSupportedMarker message then
    .unsupported
  else
    .unknown

/-- Python dict assignment devices[address] = device: replace the entry in
place when the key is present, append a new entry otherwise. -/
def upsert : List (Str × BLEDevice) → BLEDevice → List (Str × BLEDevice)
  | [], d => [(d.address, d)]
  | p :: rest, d => if p.1 = d.address then (d.address, d) :: rest else p :: upsert rest d

/-- Dict lookup by address. -/
def lookupReg : List (Str × BLEDevice) → Str → Option BLEDevice
  | [], _ => none
  | p :: rest, a => if p.1 = a then some p.2 else lookupReg rest a

/-- The keys of the registry. -/
def regKeys (reg : List (Str × BLEDevice)) : List Str := reg.map Prod.fst

/-- A sequence of advertisements applied to the registry in arrival order. -/
def applyUpserts (reg : List (Str × BLEDevice)) (ads : List BLEDevice) : List (Str × BLEDevice) :=
  ads.foldl upsert reg

/-- The latest advertisement for a given address within a sequence: a later
advertisement with that address wins over an earlier one. -/
def lastAdFor : List BLEDevice → Str → Option BLEDevice
  | [], _ => none
  | d :: ads, a =>
    match lastAdFor ads a with
    | some e => some e
    | none => if d.address = a then some d else none

/-- The comparison used by the snapshot sort: rssi descending. -/
def rssiDesc (a b : BLEDevice) : Prop := b.rssi ≤ a.rssi

instance : DecidableRel rssiDesc := fun a b => inferInstanceAs (Decidable (b.rssi ≤ a.rssi))

instance : IsTotal BLEDevice rssiDesc := ⟨fun a b => le_total b.rssi a.rssi⟩

instance : IsTrans BLEDevice rssiDesc := ⟨fun _ _ _ h1 h2 => le_trans h2 h1⟩

/-- The snapshot built inside refresh_list: the dict values filtered by the
fuzzy matcher against the current query, then stable-sorted by rssi
descending (Python list.sort with reverse=True is a stable sort; it is
modelled by the stable insertionSort). -/
def snapshot (reg : List (Str × BLEDevice)) (query : Str) : List BLEDevice :=
  List.insertionSort rssiDesc ((reg.map Prod.snd).filter (fun d => d.matches_fuzzy_search query))

/-- The observable state of BLEScanner: its scanning flag, its BleakScanner
handle, and counters for the requests it submits to the asyncio worker and
the adapter (start submissions, stop submissions, worker stops). -/
structure ScannerState where
  is_scanning : Bool
  scanner_handle : Option Unit
  start_submissions : Nat
  stop_submissions : Nat
  worker_stops : Nat
deriving DecidableEq, Repr

/-- BLEScanner.start_scan: return immediately when already scanning,
otherwise submit a start coroutine to the worker. -/
def BLEScanner.start_scan (sc : ScannerState) : ScannerState :=
  if sc.is_scanning then sc
  else { sc with start_submissions := sc.start_submissions + 1 }

/-- BLEScanner.stop_scan: return immediately when not scanning, otherwise
submit a stop coroutine (an adapter stop request) to the worker. -/
def BLEScanner.stop_scan (sc : ScannerState) : ScannerState :=
  if !sc.is_scanning then sc
  else { sc with stop_submissions := sc.stop_submissions + 1 }

/-- BLEScanner.shutdown: stop_scan, then stop the worker loop. -/
def BLEScanner.shutdown (sc : ScannerState) : ScannerState :=
  let sc := BLEScanner.stop_scan sc
  { sc with worker_stops := sc.worker_stops + 1 }

/-- Completion of the submitted stop coroutine: when a scanner handle exists
it is awaited and dropped, and is_scanning is set to false via _set_scanning;
with no handle the coroutine returns at once. -/
def BLEScanner.run_stop_scan (sc : ScannerState) : ScannerState :=
  if sc.scanner_handle = none then sc
  else { sc with scanner_handle := none, is_scanning := false }

/-- The views the stack of CompanionWindow can show. -/
inductive ViewName where
  | unavailable
  | empty
  | list
deriving DecidableEq, Repr

/-- The consumer-side state of CompanionWindow: the device registry, the
search text, the availability state, the scanning flag, the pending refresh
timer source, the embedded scanner state, and the trace of device lists
rendered by completed refreshes (the observable effect of rebuilding the
list box). -/
structure WindowState where
  devices : List (Str × BLEDevice)
  search_text : Str
  bluetooth_state : BluetoothState
  is_scanning : Bool
  refresh_source : Option Nat
  scanner : ScannerState
  refresh_notifications : List (List BLEDevice)
deriving DecidableEq, Repr

/-- CompanionWindow.schedule_refresh: arm the 200 ms timer only when no
refresh is already scheduled (GLib.timeout_add returns a source id). -/
def schedule_refresh (s : WindowState) : WindowState :=
  if s.refresh_source = none then { s with refresh_source := some 0 } else s

/-- CompanionWindow.on_device: overwrite-or-insert the device by address,
then schedule a coalesced refresh. -/
def on_device (s : WindowState) (d : BLEDevice) : WindowState :=
  schedule_refresh { s with devices := upsert s.devices d }

/-- The child update_view makes visible: unavailable for the three failure
states, empty when there are no devices and no scan runs, else the list. -/
def visible_child (s : WindowState) : ViewName :=
  if s.bluetooth_state = .disabled ∨ s.bluetooth_state = .unsupported ∨
      s.bluetooth_state = .no_permission then
    .unavailable
  else if s.devices.isEmpty ∧ !s.is_scanning then
    .empty
  else
    .list

/-- CompanionWindow.refresh_list: clear the scheduled-refresh flag first,
update the view, and only when the list view is visible rebuild the list box
from the filtered, rssi-sorted snapshot (recorded as a notification). -/
def refresh_list (s : WindowState) : WindowState :=
  let s := { s with refresh_source := none }
  if visible_child s ≠ .list then s
  else
    { s with
      refresh_notifications := s.refresh_notifications ++ [snapshot s.devices s.search_text] }

/-- CompanionWindow.on_scan_error: classify the message, record that
scanning stopped. -/
def on_scan_error (s : WindowState) (message : Str) : WindowState :=
  { s with bluetooth_state := classify_scan_error message, is_scanning := false }

/-- CompanionWindow.start_scanning: refuse outright in the unsupported and
no-permission states; otherwise clear the registry, schedule a refresh and
ask the scanner to start. -/
def start_scanning (s : WindowState) : WindowState :=
  if s.bluetooth_state = .unsupported ∨ s.bluetooth_state = .no_permission then s
  else
    let s := schedule_refresh { s with devices := [] }
    { s with scanner := BLEScanner.start_scan s.scanner }

/-- The consumer-side events relevant to the coalescer: an advertisement
delivered through on_device and the firing of the scheduled refresh timer.
The timer only exists while a refresh is scheduled, so firing without a
scheduled source is a no-op. -/
inductive WEvent where
  | ad (d : BLEDevice)
  | fire

/-- One consumer-side step. -/
def wstep (s : WindowState) : WEvent → WindowState
  | .ad d => on_device s d
  | .fire => if s.refresh_source = none then s else refresh_list s

/-- The window state right after construction: empty registry, empty search
text, unknown availability, not scanning, no refresh scheduled. -/
def initial_window : WindowState :=
  { devices := []
    search_text := []
    bluetooth_state := .unknown
    is_scanning := false
    refresh_source := none
    scanner :=
      { is_scanning := false
        scanner_handle := none
        start_submissions := 0
        stop_submissions := 0
        worker_stops := 0 }
    refresh_notifications := [] }

/-- Sample device used to instantiate hypotheses at concrete inputs. -/
def devA : BLEDevice :=
  { address := ("aa").data
    name := ("Pixel Buds").data
    local_name := none
    rssi := -45
    service_uuids := []
    tx_power := none
    manufacturer_data := none
    connectable := true
    discovered_at := 0 }

/-- Second sample device, distinct address and rssi. -/
def devB : BLEDevice :=
  { address := ("bb").data
    name := ("Keyboard").data
    local_name := some (("BLE Keys").data)
    rssi := -72
    service_uuids := [("0000180f-0000-1000-8000-00805f9b34fb").data]
    tx_power := some 4
    manufacturer_data := some [76, 0]
    connectable := false
    discovered_at := 5 }

instance : Inhabited BLEDevice := ⟨devA⟩

lemma lookup_upsert_self (reg : List (Str × BLEDevice)) (d : BLEDevice) :
    lookupReg (upsert reg d) d.address = some d := by
  induction reg with
  | nil => simp [upsert, lookupReg]
  | cons p rest ih =>
    by_cases h : p.1 = d.address
    · simp [upsert, h, lookupReg]
    · simp [upsert, h, lookupReg, ih]

lemma lookup_upsert_other (reg : List (Str × BLEDevice)) (d : BLEDevice) (a : Str)
    (h : a ≠ d.address) : lookupReg (upsert reg d) a = lookupReg reg a := by
  induction reg with
  | nil => simp [upsert, lookupReg, Ne.symm h]
  | cons p rest ih =>
    by_cases hp : p.1 = d.address
    · simp [upsert, hp, lookupReg, Ne.symm h]
    · simp [upsert, hp, lookupReg, ih]

lemma regKeys_upsert (reg : List (Str × BLEDevice)) (d : BLEDevice) :
    regKeys (upsert reg d) =
      if d.address ∈ regKeys reg then regKeys reg else regKeys reg ++ [d.address] := by
  induction reg with
  | nil => simp [upsert, regKeys]
  | cons p rest ih =>
    by_cases h : p.1 = d.address
    · simp [upsert, h, regKeys]
    · have hup : regKeys (upsert (p :: rest) d) = p.1 :: regKeys (upsert rest d) := by
        simp [upsert, h, regKeys]
      have hcons : regKeys (p :: rest) = p.1 :: regKeys rest := rfl
      rw [hup, ih, hcons]
      by_cases hm : d.address ∈ regKeys rest
      · simp [hm, Ne.symm h]
      · simp [hm, Ne.symm h]

lemma nodup_regKeys_upsert {reg : List (Str × BLEDevice)} (d : BLEDevice)
    (h : (regKeys reg).Nodup) : (regKeys (upsert reg d)).Nodup := by
  rw [regKeys_upsert]
  by_cases hm : d.address ∈ regKeys reg
  · simpa [hm]
  · simp [hm, List.nodup_append, h]

lemma nodup_regKeys_applyUpserts (ads : List BLEDevice) (reg : List (Str × BLEDevice))
    (h : (regKeys reg).Nodup) : (regKeys (applyUpserts reg ads)).Nodup := by
  induction ads generalizing reg with
  | nil => simpa [applyUpserts]
  | cons d ads ih =>
    simpa [applyUpserts] using ih (upsert reg d) (nodup_regKeys_upsert d h)

lemma lookup_applyUpserts (ads : List BLEDevice) (reg : List (Str × BLEDevice)) (a : Str) :
    lookupReg (applyUpserts reg ads) a = (lastAdFor ads a).elim (lookupReg reg a) some := by
  induction ads generalizing reg with
  | nil => simp [applyUpserts, lastAdFor]
  | cons d ads ih =>
    have step : applyUpserts reg (d :: ads) = applyUpserts (upsert reg d) ads := by
      simp [applyUpserts]
    rw [step, ih]
    cases hl : lastAdFor ads a with
    | some e => simp [lastAdFor, hl]
    | none =>
      by_cases hd : d.address = a
      · subst hd
        simp [lastAdFor, hl, lookup_upsert_self]
      · simp [lastAdFor, hl, hd, lookup_upsert_other reg d a (Ne.symm hd)]

lemma schedule_refresh_devices (s : WindowState) :
    (schedule_refresh s).devices = s.devices := by
  unfold schedule_refresh; split <;> rfl

lemma on_device_devices (s : WindowState) (d : BLEDevice) :
    (on_device s d).devices = upsert s.devices d := by
  simp [on_device, schedule_refresh_devices]

lemma foldl_on_device_devices (ads : List BLEDevice) (s : WindowState) :
    (ads.foldl on_device s).devices = applyUpserts s.devices ads := by
  induction ads generalizing s with
  | nil => simp [applyUpserts]
  | cons d ads ih => simp [applyUpserts, ih, on_device_devices]

/-- C1: delivering any sequence of advertisements through on_device keeps at
most one registry entry per address (the registry keys stay Nodup), and the
entry stored for an address is exactly the BLEDevice built from the last
advertisement received for that address: every field is overwritten, nothing
is merged or appended. -/
theorem registry_last_write_wins (ads : List BLEDevice) (a : Str) :
    (regKeys ((ads.foldl on_device initial_window).devices)).Nodup ∧
    lookupReg ((ads.foldl on_device initial_window).devices) a = lastAdFor ads a := by
  constructor
  · rw [foldl_on_device_devices]
    exact nodup_regKeys_applyUpserts ads _ (by simp [initial_window, regKeys])
  · rw [foldl_on_device_devices, lookup_applyUpserts]
    cases lastAdFor ads a <;> simp [initial_window, lookupReg]

/-- C10: on_device mutates only the registry entry for the advertised
address and the refresh-scheduling flag: every distinct address keeps its
registry entry, and is_scanning, bluetooth_state and search_text (and also
the scanner state and the emitted notifications) are unchanged. -/
theorem on_device_frame (s : WindowState) (d : BLEDevice) :
    (∀ a, a ≠ d.address → lookupReg (on_device s d).devices a = lookupReg s.devices a) ∧
    lookupReg (on_device s d).devices d.address = some d ∧
    (on_device s d).is_scanning = s.is_scanning ∧
    (on_device s d).bluetooth_state = s.bluetooth_state ∧
    (on_device s d).search_text = s.search_text ∧
    (on_device s d).scanner = s.scanner ∧
    (on_device s d).refresh_notifications = s.refresh_notifications := by
  refine ⟨fun a ha => ?_, ?_, ?_, ?_, ?_, ?_, ?_⟩
  · rw [on_device_devices]
    exact lookup_upsert_other s.devices d a ha
  · rw [on_device_devices]
    exact lookup_upsert_self s.devices d
  all_goals unfold on_device schedule_refresh
  all_goals split <;> rfl

/-- C10 witness: the frame theorem applied at a concrete state and device,
with the distinct-address hypothesis discharged by evaluation. -/
theorem on_device_frame_witness :
    lookupReg (on_device initial_window devA).devices (("bb").data) =
      lookupReg initial_window.devices (("bb").data) ∧
    (on_device initial_window devA).is_scanning = initial_window.is_scanning :=
  ⟨(on_device_frame initial_window devA).1 (("bb").data) (by decide),
   (on_device_frame initial_window devA).2.2.1⟩

/-- A device with a given rssi and all other fields fixed, used to evaluate
the boundary examples of the signal-tier classification. -/
def devWithRssi (r : Int) : BLEDevice :=
  { devA with rssi := r }

/-- C7: rssi_description is a total deterministic function of the integer
rssi alone, partitioning the integers with inclusive lower boundaries:
rssi at least -50 gives Excellent, at least -60 Good, at least -70 Fair,
below -70 Weak; in particular -45, -55, -65, -90 and the boundaries -50,
-60, -70 classify as listed in the claim. -/
theorem rssi_description_partition (d : BLEDevice) :
    (d.rssi_description = "Excellent" ↔ -50 ≤ d.rssi) ∧
    (d.rssi_description = "Good" ↔ -60 ≤ d.rssi ∧ d.rssi < -50) ∧
    (d.rssi_description = "Fair" ↔ -70 ≤ d.rssi ∧ d.rssi < -60) ∧
    (d.rssi_description = "Weak" ↔ d.rssi < -70) ∧
    (∀ e : BLEDevice, e.rssi = d.rssi → e.rssi_description = d.rssi_description) ∧
    (devWithRssi (-45)).rssi_description = "Excellent" ∧
    (devWithRssi (-55)).rssi_description = "Good" ∧
    (devWithRssi (-65)).rssi_description = "Fair" ∧
    (devWithRssi (-90)).rssi_description = "Weak" ∧
    (devWithRssi (-50)).rssi_description = "Excellent" ∧
    (devWithRssi (-60)).rssi_description = "Good" ∧
    (devWithRssi (-70)).rssi_description = "Fair" := by
  refine ⟨?_, ?_, ?_, ?_, fun e he => ?_, ?_, ?_, ?_, ?_, ?_, ?_, ?_⟩
  · unfold BLEDevice.rssi_description
    split_ifs with h1 h2 h3 <;>
      first
        | exact iff_of_true rfl (by omega)
        | exact iff_of_false (by decide) (by omega)
  · unfold BLEDevice.rssi_description
    split_ifs with h1 h2 h3 <;>
      first
        | exact iff_of_true rfl (by omega)
        | exact iff_of_false (by decide) (by omega)
  · unfold BLEDevice.rssi_description
    split_ifs with h1 h2 h3 <;>
      first
        | exact iff_of_true rfl (by omega)
        | exact iff_of_false (by decide) (by omega)
  · unfold BLEDevice.rssi_description
    split_ifs with h1 h2 h3 <;>
      first
        | exact iff_of_true rfl (by omega)
        | exact iff_of_false (by decide) (by omega)
  · unfold BLEDevice.rssi_description
    rw [he]
  all_goals decide

/-- C7 witness: the rssi-alone-dependence conjunct applied at two concrete
devices sharing rssi -45. -/
theorem rssi_description_partition_witness :
    (devWithRssi (-45)).rssi_description = devA.rssi_description :=
  (rssi_description_partition devA).2.2.2.2.1 (devWithRssi (-45)) rfl

/-- C4: on_scan_error classifies the message with first match winning: a
permission or authorization marker gives no_permission; otherwise a
not-ready or not-powered marker gives disabled; otherwise a no-adapter or
not-supported marker gives unsupported; otherwise unknown. -/
theorem classify_scan_error_precedence (message : Str) :
    ((containsSub permissionMarker message || containsSub notAuthorizedMarker message) = true →
      classify_scan_error message = .no_permission) ∧
    ((containsSub permissionMarker message || containsSub notAuthorizedMarker message) = false →
      (containsSub notReadyMarker message || containsSub notPoweredMarker message) = true →
      classify_scan_error message = .disabled) ∧
    ((containsSub permissionMarker message || containsSub notAuthorizedMarker message) = false →
      (containsSub notReadyMarker message || containsSub notPoweredMarker message) = false →
      (containsSub noAdapterMarker message || containsSub notSupportedMarker message) = true →
      classify_scan_error message = .unsupported) ∧
    ((containsSub permissionMarker message || containsSub notAuthorizedMarker message) = false →
      (containsSub notReadyMarker message || containsSub notPoweredMarker message) = false →
      (containsSub noAdapterMarker message || containsSub notSupportedMarker message) = false →
      classify_scan_error message = .unknown) := by
  refine ⟨fun h1 => ?_, fun h1 h2 => ?_, fun h1 h2 h3 => ?_, fun h1 h2 h3 => ?_⟩
  · simp [classify_scan_error, h1]
  · simp [classify_scan_error, h1, h2]
  · simp [classify_scan_error, h1, h2, h3]
  · simp [classify_scan_error, h1, h2, h3]

/-- C4 witness: a message with a not-ready marker and no permission marker
classifies as disabled. -/
theorem classify_scan_error_precedence_witness :
    classify_scan_error (("org.bluez.Error.NotReady").data) = .disabled :=
  (classify_scan_error_precedence (("org.bluez.Error.NotReady").data)).2.1
    (by decide) (by decide)

/-- C5: while the availability state is no_permission or unsupported,
start_scanning refuses: the whole window state is unchanged, so no start
request reaches the scanner, is_scanning keeps its value, and the registry
keeps its entries. -/
theorem start_scanning_refused (s : WindowState)
    (h : s.bluetooth_state = .no_permission ∨ s.bluetooth_state = .unsupported) :
    start_scanning s = s ∧
    (start_scanning s).scanner.start_submissions = s.scanner.start_submissions ∧
    (start_scanning s).is_scanning = s.is_scanning ∧
    (start_scanning s).devices = s.devices := by
  have he : start_scanning s = s := by
    unfold start_scanning
    rcases h with h | h <;> simp [h]
  exact ⟨he, by rw [he], by rw [he], by rw [he]⟩

/-- C5 witness: the refusal theorem applied at a concrete no-permission
state. -/
theorem start_scanning_refused_witness :
    start_scanning { initial_window with bluetooth_state := .no_permission } =
      { initial_window with bluetooth_state := .no_permission } :=
  (start_scanning_refused { initial_window with bluetooth_state := .no_permission }
    (Or.inl rfl)).1

/-- C6: the snapshot that refresh_list renders is exactly the registered
devices that match the current query (the same multiset as the filtered
registry values, and membership is equivalent to being registered and
matching), ordered by rssi descending. -/
theorem snapshot_filter_sort (reg : List (Str × BLEDevice)) (query : Str) :
    (snapshot reg query).Perm
      ((reg.map Prod.snd).filter (fun d => d.matches_fuzzy_search query)) ∧
    List.Sorted rssiDesc (snapshot reg query) ∧
    (∀ d, d ∈ snapshot reg query ↔
      d ∈ reg.map Prod.snd ∧ d.matches_fuzzy_search query = true) := by
  refine ⟨List.perm_insertionSort rssiDesc _, List.sorted_insertionSort rssiDesc _, fun d => ?_⟩
  simp [snapshot, List.mem_insertionSort, List.mem_filter]

/-- BLEScanner.shutdown on a non-scanning scanner only stops the worker. -/
lemma shutdown_of_not_scanning (t : ScannerState) (ht : t.is_scanning = false) :
    BLEScanner.shutdown t = { t with worker_stops := t.worker_stops + 1 } := by
  unfold BLEScanner.shutdown BLEScanner.stop_scan
  simp [ht]

/-- C8: once a shutdown has completed (its submitted stop coroutine has run),
is_scanning is false, and a second shutdown raises no error (it is a total
function) and submits no second adapter stop request: it only stops the
worker loop again.  The hypothesis states the run-time invariant that a
scanning scanner owns a handle. -/
theorem shutdown_twice_no_second_stop (sc : ScannerState)
    (hinv : sc.is_scanning = true → sc.scanner_handle ≠ none) :
    (BLEScanner.run_stop_scan (BLEScanner.shutdown sc)).is_scanning = false ∧
    BLEScanner.shutdown (BLEScanner.run_stop_scan (BLEScanner.shutdown sc)) =
      { BLEScanner.run_stop_scan (BLEScanner.shutdown sc) with
        worker_stops := (BLEScanner.run_stop_scan (BLEScanner.shutdown sc)).worker_stops + 1 } := by
  have h1 : (BLEScanner.run_stop_scan (BLEScanner.shutdown sc)).is_scanning = false := by
    cases hsc : sc.is_scanning with
    | true =>
      have hh := hinv hsc
      unfold BLEScanner.shutdown BLEScanner.stop_scan BLEScanner.run_stop_scan
      simp [hsc, hh]
    | false =>
      unfold BLEScanner.shutdown BLEScanner.stop_scan BLEScanner.run_stop_scan
      by_cases hh : sc.scanner_handle = none <;> simp [hsc, hh]
  exact ⟨h1, shutdown_of_not_scanning _ h1⟩

/-- C8 witness: the idempotence theorem applied at the freshly constructed
scanner state. -/
theorem shutdown_twice_no_second_stop_witness :
    (BLEScanner.run_stop_scan (BLEScanner.shutdown initial_window.scanner)).is_scanning =
      false :=
  (shutdown_twice_no_second_stop initial_window.scanner (by decide)).1

lemma startsWith_sublist (a : Str) : ∀ b : Str, startsWith a b = true → List.Sublist a b := by
  induction a with
  | nil => exact fun b _ => List.nil_sublist b
  | cons x xs ih =>
    intro b h
    cases b with
    | nil => simp [startsWith] at h
    | cons y ys =>
      simp [startsWith] at h
      obtain ⟨hxy, hrest⟩ := h
      subst hxy
      exact List.Sublist.cons₂ x (ih ys hrest)

lemma containsSub_sublist (needle : Str) : ∀ hay : Str,
    containsSub needle hay = true → List.Sublist needle hay := by
  intro hay
  induction hay with
  | nil =>
    intro h
    cases needle with
    | nil => exact List.Sublist.refl []
    | cons x xs => simp [containsSub, startsWith] at h
  | cons y ys ih =>
    intro h
    simp only [containsSub, Bool.or_eq_true] at h
    rcases h with h | h
    · exact startsWith_sublist needle (y :: ys) h
    · exact List.Sublist.cons y (ih h)

/-- Completeness of the greedy single-pass scan: whenever the not-yet
consumed query suffix embeds as a subsequence of the remaining name, the
scan consumes the whole query. -/
lemma foldl_scanStep_complete (name : Str) :
    ∀ (q : Str) (p : Nat), p ≤ q.length → List.Sublist (q.drop p) name →
      name.foldl (scanStep q) p = q.length := by
  induction name with
  | nil =>
    intro q p hp hsub
    have hnil : q.drop p = [] := List.sublist_nil.mp hsub
    have hge : q.length ≤ p := List.drop_eq_nil_iff.mp hnil
    simpa using le_antisymm hp hge
  | cons c rest ih =>
    intro q p hp hsub
    rw [List.foldl_cons]
    cases hq : q[p]? with
    | none =>
      have hge : q.length ≤ p := List.getElem?_eq_none_iff.mp hq
      have hpe : p = q.length := le_antisymm hp hge
      have hstep : scanStep q p c = p := by unfold scanStep; simp [hq]
      rw [hstep]
      refine ih q p hp ?_
      have hnil : q.drop p = [] := by rw [hpe, List.drop_length]
      rw [hnil]
      exact List.nil_sublist rest
    | some qc =>
      obtain ⟨hlt, hget⟩ := List.getElem?_eq_some.mp hq
      have hdrop : q.drop p = qc :: q.drop (p + 1) := by
        rw [List.drop_eq_getElem_cons hlt, hget]
      by_cases hqc : qc = c
      · have hstep : scanStep q p c = p + 1 := by
          unfold scanStep; simp [hq, hqc]
        rw [hstep]
        refine ih q (p + 1) hlt ?_
        subst hqc
        rw [hdrop] at hsub
        exact List.cons_sublist_cons.mp hsub
      · have hstep : scanStep q p c = p := by
          unfold scanStep; simp [hq, hqc]
        rw [hstep]
        refine ih q p hp ?_
        rw [hdrop] at hsub ⊢
        cases hsub with
        | cons _ h => exact h
        | cons₂ _ h => exact absurd rfl hqc

lemma subseqScan_of_sublist (name q : Str) (h : List.Sublist q name) :
    subseqScan name q = true := by
  unfold subseqScan
  have hc := foldl_scanStep_complete name q 0 (Nat.zero_le _) (by simpa using h)
  simp [hc]

/-- C3: for every device and non-empty query, whenever the lowercased query
characters appear in order as a not-necessarily-contiguous subsequence of
the lowercased display name, the greedy single-pass scan succeeds and
matches_fuzzy_search returns true. -/
theorem matches_of_subsequence (d : BLEDevice) (q : Str) (hne : q ≠ [])
    (h : List.Sublist (lowerStr q) (lowerStr d.display_name)) :
    d.matches_fuzzy_search q = true := by
  have hq : q.isEmpty = false := by
    cases q with
    | nil => exact absurd rfl hne
    | cons x xs => rfl
  have hscan := subseqScan_of_sublist (lowerStr d.display_name) (lowerStr q) h
  unfold BLEDevice.matches_fuzzy_search
  simp [hq, hscan]

/-- C3 witness: pxbd embeds in order into Pixel Buds, and the matcher
accepts. -/
theorem matches_of_subsequence_witness :
    devA.matches_fuzzy_search (("pxbd").data) = true :=
  matches_of_subsequence devA (("pxbd").data) (by decide) (by decide)

/-- C9: the contiguous-substring clause of matches_fuzzy_search is subsumed
by the greedy subsequence clause: a successful substring test on the display
name forces a successful greedy scan, and removing the substring clause
leaves the value of matches_fuzzy_search unchanged on every input. -/
theorem substring_clause_subsumed (d : BLEDevice) (q : Str) :
    (containsSub (lowerStr q) (lowerStr d.display_name) = true →
      subseqScan (lowerStr d.display_name) (lowerStr q) = true) ∧
    d.matches_fuzzy_search q = d.matches_fuzzy_search_nosub q := by
  have himp : containsSub (lowerStr q) (lowerStr d.display_name) = true →
      subseqScan (lowerStr d.display_name) (lowerStr q) = true := fun hc =>
    subseqScan_of_sublist _ _ (containsSub_sublist _ _ hc)
  refine ⟨himp, ?_⟩
  unfold BLEDevice.matches_fuzzy_search BLEDevice.matches_fuzzy_search_nosub
  by_cases hq : q.isEmpty
  · simp [hq]
  · by_cases hc : containsSub (lowerStr q) (lowerStr d.display_name) = true
    · simp [hq, hc, himp hc]
    · simp [hq, hc]

/-- C9 witness: the substring-implies-subsequence direction applied at the
device with display name BLE Keys and the query key. -/
theorem substring_clause_subsumed_witness :
    subseqScan (lowerStr devB.display_name) (lowerStr (("key").data)) = true :=
  (substring_clause_subsumed devB (("key").data)).1 (by decide)

/-- The debounce delay passed to GLib.timeout_add, in milliseconds. -/
def refresh_delay_ms : Nat := 200

lemma on_device_eq (s : WindowState) (d : BLEDevice) :
    on_device s d =
      { s with devices := upsert s.devices d,
               refresh_source := some (s.refresh_source.getD 0) } := by
  unfold on_device schedule_refresh
  cases hr : s.refresh_source with
  | none => simp [hr]
  | some k => simp [hr]

lemma foldl_ads_eq : ∀ (ads : List BLEDevice) (s : WindowState), ads ≠ [] →
    (ads.map WEvent.ad).foldl wstep s =
      { s with devices := applyUpserts s.devices ads,
               refresh_source := some (s.refresh_source.getD 0) }
  | [], _, hne => absurd rfl hne
  | [d], s, _ => by
    simp [wstep, on_device_eq, applyUpserts]
  | d :: d2 :: rest, s, _ => by
    have hmap : ((d :: d2 :: rest).map WEvent.ad) =
        WEvent.ad d :: ((d2 :: rest).map WEvent.ad) := rfl
    rw [hmap, List.foldl_cons]
    have hrec := foldl_ads_eq (d2 :: rest) (wstep s (.ad d)) (by simp)
    rw [hrec]
    simp [wstep, on_device_eq, applyUpserts]

lemma upsert_ne_nil (reg : List (Str × BLEDevice)) (d : BLEDevice) : upsert reg d ≠ [] := by
  cases reg with
  | nil => simp [upsert]
  | cons p rest =>
    unfold upsert
    split <;> simp

lemma applyUpserts_ne_nil : ∀ (ads : List BLEDevice) (reg : List (Str × BLEDevice)),
    ads ≠ [] → applyUpserts reg ads ≠ []
  | [], _, hne => absurd rfl hne
  | [d], reg, _ => by simpa [applyUpserts] using upsert_ne_nil reg d
  | d :: d2 :: rest, reg, _ => by
    have hrec := applyUpserts_ne_nil (d2 :: rest) (upsert reg d) (by simp)
    simpa [applyUpserts] using hrec

lemma refresh_list_eq_of_list_view (s : WindowState)
    (hb1 : s.bluetooth_state ≠ .disabled) (hb2 : s.bluetooth_state ≠ .unsupported)
    (hb3 : s.bluetooth_state ≠ .no_permission) (hdev : s.devices ≠ []) :
    refresh_list s =
      { s with refresh_source := none,
               refresh_notifications :=
                 s.refresh_notifications ++ [snapshot s.devices s.search_text] } := by
  have hde : s.devices.isEmpty = false := by
    cases hd2 : s.devices with
    | nil => exact absurd hd2 hdev
    | cons a t => rfl
  unfold refresh_list visible_child
  simp [hb1, hb2, hb3, hde]

lemma upsert_not_mem (reg : List (Str × BLEDevice)) (d : BLEDevice)
    (h : d.address ∉ regKeys reg) : upsert reg d = reg ++ [(d.address, d)] := by
  induction reg with
  | nil => simp [upsert]
  | cons p rest ih =>
    rw [show regKeys (p :: rest) = p.1 :: regKeys rest from rfl] at h
    have hp : ¬(p.1 = d.address) := fun he => h (List.mem_cons.mpr (Or.inl he.symm))
    have hrest : d.address ∉ regKeys rest := fun hm => h (List.mem_cons.mpr (Or.inr hm))
    simp [upsert, hp, ih hrest]

lemma applyUpserts_distinct : ∀ (ads : List BLEDevice) (reg : List (Str × BLEDevice)),
    (ads.map BLEDevice.address).Nodup →
    (∀ d ∈ ads, d.address ∉ regKeys reg) →
    applyUpserts reg ads = reg ++ ads.map (fun d => (d.address, d))
  | [], reg, _, _ => by simp [applyUpserts]
  | d :: rest, reg, hnd, hmem => by
    have hd : d.address ∉ regKeys reg := hmem d (List.mem_cons_self d rest)
    have hnd0 : d.address ∉ rest.map BLEDevice.address ∧
        (rest.map BLEDevice.address).Nodup := by
      simpa [List.nodup_cons] using hnd
    have hmem2 : ∀ e ∈ rest, e.address ∉ regKeys (reg ++ [(d.address, d)]) := by
      intro e he hmm
      have hkeys : regKeys (reg ++ [(d.address, d)]) = regKeys reg ++ [d.address] := by
        simp [regKeys]
      rw [hkeys] at hmm
      rcases List.mem_append.mp hmm with hma | hmb
      · exact hmem e (List.mem_cons_of_mem d he) hma
      · have heq : e.address = d.address := by simpa using hmb
        exact hnd0.1 (List.mem_map.mpr ⟨e, he, heq⟩)
    have hstep : applyUpserts reg (d :: rest) = applyUpserts (reg ++ [(d.address, d)]) rest := by
      simp [applyUpserts, upsert_not_mem reg d hd]
    rw [hstep, applyUpserts_distinct rest _ hnd0.2 hmem2]
    simp

lemma matches_empty (d : BLEDevice) : d.matches_fuzzy_search [] = true := rfl

lemma snapshot_pairs_perm (ads : List BLEDevice) :
    (snapshot (ads.map (fun d => (d.address, d))) []).Perm ads := by
  unfold snapshot
  have h1 : (ads.map (fun d => (d.address, d))).map Prod.snd = ads := by
    induction ads with
    | nil => rfl
    | cons d rest ih => simp [ih]
  rw [h1]
  have h2 : ads.filter (fun d => d.matches_fuzzy_search []) = ads := by
    simp [matches_empty]
  rw [h2]
  exact List.perm_insertionSort rssiDesc ads

/-- C2: starting with no refresh scheduled, a run of N at least 1 upserts
followed by the timer firing produces exactly one refresh notification,
carrying the snapshot of the registry holding all N upserts; refresh_list
clears the flag at its start, and it stays clear, so an upsert arriving
after the refresh ran schedules the next refresh instead of being dropped.
When the registry and the query start empty and the N addresses are
distinct, the carried snapshot is a permutation of the N upserted
devices. -/
theorem coalesced_refresh (s : WindowState) (ads : List BLEDevice)
    (_hsrc : s.refresh_source = none) (hne : ads ≠ [])
    (hb1 : s.bluetooth_state ≠ .disabled) (hb2 : s.bluetooth_state ≠ .unsupported)
    (hb3 : s.bluetooth_state ≠ .no_permission) :
    ((ads.map WEvent.ad ++ [WEvent.fire]).foldl wstep s).refresh_notifications =
      s.refresh_notifications ++ [snapshot (applyUpserts s.devices ads) s.search_text] ∧
    ((ads.map WEvent.ad ++ [WEvent.fire]).foldl wstep s).refresh_source = none ∧
    (∀ d, (wstep ((ads.map WEvent.ad ++ [WEvent.fire]).foldl wstep s) (.ad d)).refresh_source ≠
      none) ∧
    (s.devices = [] → s.search_text = [] → (ads.map BLEDevice.address).Nodup →
      (snapshot (applyUpserts s.devices ads) s.search_text).Perm ads) := by
  have hfold : (ads.map WEvent.ad ++ [WEvent.fire]).foldl wstep s =
      wstep ((ads.map WEvent.ad).foldl wstep s) .fire := by
    rw [List.foldl_append]
    rfl
  have hads := foldl_ads_eq ads s hne
  have hdev1 : applyUpserts s.devices ads ≠ [] := applyUpserts_ne_nil ads s.devices hne
  have hfire : wstep
      { s with devices := applyUpserts s.devices ads,
               refresh_source := some (s.refresh_source.getD 0) } .fire =
      refresh_list
        { s with devices := applyUpserts s.devices ads,
                 refresh_source := some (s.refresh_source.getD 0) } := by
    simp [wstep]
  have hrl := refresh_list_eq_of_list_view
      { s with devices := applyUpserts s.devices ads,
               refresh_source := some (s.refresh_source.getD 0) }
      hb1 hb2 hb3 hdev1
  have hall : (ads.map WEvent.ad ++ [WEvent.fire]).foldl wstep s =
      { s with devices := applyUpserts s.devices ads,
               refresh_source := none,
               refresh_notifications :=
                 s.refresh_notifications ++
                   [snapshot (applyUpserts s.devices ads) s.search_text] } := by
    rw [hfold, hads, hfire, hrl]
  refine ⟨?_, ?_, ?_, ?_⟩
  · rw [hall]
  · rw [hall]
  · intro d
    rw [hall]
    simp [wstep, on_device_eq]
  · intro h1 h2 h3
    rw [h1, h2]
    rw [applyUpserts_distinct ads [] h3 (by simp [regKeys])]
    simpa using snapshot_pairs_perm ads

/-- C2 witness: one upsert and one timer expiry from the freshly constructed
window emit exactly one notification with that device. -/
theorem coalesced_refresh_witness :
    (([devA].map WEvent.ad ++ [WEvent.fire]).foldl wstep initial_window).refresh_notifications =
      initial_window.refresh_notifications ++
        [snapshot (applyUpserts initial_window.devices [devA]) initial_window.search_text] :=
  (coalesced_refresh initial_window [devA] rfl (by decide) (by decide) (by decide)
    (by decide)).1

end BluetoothApp
